import Mathlib

/-!
Verification of the order-lifecycle core of the ecommerce-microservices
repository: the stock ledger (ProductRepository.UpdateStock), the order store
(OrderRepository.Create / UpdateStatus), the order orchestrator
(OrderService.CreateOrder / CancelOrder) and the event consumer
(RabbitMQConsumer.processMessage).

Modelling conventions: Go strings are Lean String; Go int is Int (stock values
live in the INTEGER column of the products table, far from machine bounds);
Go float64 money amounts are modelled as ℚ; the SQL tables are association
lists keyed by id; uuid.New() draws are passed in as explicit fresh-name
arguments; time.Now() is an explicit Nat tick (`0` stands for Go's zero time
value); cross-service HTTP effects and the notification handlers are passed
in as explicit function arguments.
-/

namespace ECom

/-! Stock ledger (product-service ProductRepository) -/

/-- Error outcomes of ProductRepository.UpdateStock. -/
inductive StockError
  | productNotFound
  | insufficientStock
deriving DecidableEq, Repr

/-- The products table restricted to the columns UpdateStock reads and
writes: product id ↦ stock quantity. -/
abbrev StockStore := List (String × Int)

/-- The UPDATE products SET stock = q WHERE id = p write: replaces the
binding of `p` (the primary-key row) by `q`. -/
def setStock : StockStore → String → Int → StockStore
  | [], _, _ => []
  | (k, v) :: rest, p, q =>
      if k = p then (k, q) :: rest else (k, v) :: setStock rest p q

namespace ProductRepository

/-- ProductRepository.UpdateStock: SELECT stock FOR UPDATE, then reject the
adjustment when current + quantity < 0, else write the new stock, all in one
transaction. -/
def UpdateStock (db : StockStore) (productID : String) (quantity : Int) :
    Except StockError StockStore :=
  match db.lookup productID with
  | none => .error .productNotFound
  | some currentStock =>
      let newStock := currentStock + quantity
      if newStock < 0 then .error .insufficientStock
      else .ok (setStock db productID newStock)

end ProductRepository

/-- One Adjust call applied to the ledger state: a rejected adjustment leaves
the table unchanged (the transaction rolls back). -/
def applyAdjust (db : StockStore) (call : String × Int) : StockStore :=
  match ProductRepository.UpdateStock db call.1 call.2 with
  | .ok db2 => db2
  | .error _ => db

/-- Every stock quantity stored in the table is non-negative. -/
def NonNegStock (db : StockStore) : Prop := ∀ e ∈ db, 0 ≤ e.2

instance : DecidablePred NonNegStock := fun db =>
  decidable_of_iff (∀ e ∈ db, 0 ≤ e.2) Iff.rfl
/-! Order data model (shared/models) and order store (OrderRepository) -/

/-- models.OrderItem; Price is the float64 unit price captured at order
time, modelled as ℚ. -/
structure OrderItem where
  id : String
  orderID : String
  productID : String
  quantity : Int
  price : ℚ
deriving DecidableEq, Repr

/-- models.Order; timestamps are Nat ticks. -/
structure Order where
  id : String
  userID : String
  items : List OrderItem
  totalPrice : ℚ
  status : String
  createdAt : Nat
  updatedAt : Nat
deriving DecidableEq, Repr

/-- models.Product as the order service sees it from the catalog
collaborator (the fields CreateOrder reads). -/
structure Product where
  id : String
  name : String
  price : ℚ
  stock : Int
deriving DecidableEq, Repr

/-- One item of models.CreateOrderRequest: product id and quantity (the
request carries no price field). -/
structure ReqItem where
  productID : String
  quantity : Int
deriving DecidableEq, Repr

/-- messaging.OrderEvent: the snapshot serialized onto the Event Channel. -/
structure OrderEvent where
  orderID : String
  userID : String
  totalPrice : ℚ
  status : String
  createdAt : Nat
deriving DecidableEq, Repr

/-- The orders table joined with its order_items rows. -/
abbrev OrderStore := List Order

/-- SELECT ... FROM orders WHERE id = $1 (plus its items). -/
def getByID (store : OrderStore) (orderID : String) : Option Order :=
  store.find? (fun o => o.id == orderID)

/-- The uuid and order_id assignment performed on each item row inserted by
OrderRepository.Create; `itemID i` is the uuid drawn for the i-th item. -/
def storedItems (items : List OrderItem) (newID : String) (itemID : Nat → String) :
    List OrderItem :=
  items.mapIdx fun i it => { it with id := itemID i, orderID := newID }

namespace OrderRepository

/-- OrderRepository.Create: one transaction inserting the order row (with a
fresh uuid `newID`, timestamps `now`, status forced to pending) and its item
rows. The returned Order is the caller's struct after the in-place mutation
of id, timestamps and status (its items keep their zero-valued ids, since Go
ranges over item copies). -/
def Create (store : OrderStore) (order : Order) (newID : String)
    (itemID : Nat → String) (now : Nat) : OrderStore × Order :=
  let order' : Order :=
    { order with id := newID, createdAt := now, updatedAt := now, status := "pending" }
  (store ++ [{ order' with items := storedItems order.items newID itemID }], order')

/-- OrderRepository.UpdateStatus: UPDATE orders SET status, updated_at WHERE
id; zero rows affected yields an order-not-found error. No transition
validation is performed. -/
def UpdateStatus (store : OrderStore) (orderID status : String) (now : Nat) :
    Except String OrderStore :=
  if store.any (fun o => o.id == orderID) then
    .ok (store.map fun o =>
      if o.id == orderID then { o with status := status, updatedAt := now } else o)
  else .error "order not found"

end OrderRepository

/-! Order orchestrator (order-service OrderService) -/

/-- Combined state of the saga: the orders table, the stock ledger table and
the list of events published onto the Event Channel. -/
structure SagaState where
  orders : OrderStore
  stock : StockStore
  events : List OrderEvent
deriving DecidableEq, Repr

namespace OrderService

/-- OrderService.validateUser: only rejects an empty user id. -/
def validateUser (userID : String) : Except String Unit :=
  if userID = "" then .error "user ID is required" else .ok ()

/-- OrderService.getProductDetails: the source mocks the catalog call,
returning for every requested id a product priced 99.99 with stock 100. -/
def getProductDetails (productIDs : List String) : List (String × Product) :=
  productIDs.map fun pid =>
    (pid, { id := pid, name := "Product " ++ pid, price := 99.99, stock := 100 })

/-- The Step-3 loop of OrderService.CreateOrder: for each requested item,
look the product up in the fetched map (product-not-found on a miss), apply
the optimistic stock pre-check, snapshot the catalog price into an OrderItem
and accumulate the total price. Fails at the first offending item. -/
def buildItems (products : List (String × Product)) :
    List ReqItem → Except String (List OrderItem × ℚ)
  | [] => .ok ([], 0)
  | item :: rest =>
      match products.lookup item.productID with
      | none => .error ("product " ++ item.productID ++ " not found")
      | some product =>
          if product.stock < item.quantity then
            .error ("insufficient stock for " ++ product.name)
          else
            match buildItems products rest with
            | .error e => .error e
            | .ok (itemsRest, totalRest) =>
                .ok ({ id := "", orderID := "", productID := item.productID,
                       quantity := item.quantity, price := product.price } :: itemsRest,
                     product.price * (item.quantity : ℚ) + totalRest)

/-- OrderService.reserveStock as it stands in the source: it only logs each
item and returns nil — the stock ledger is never called and the call can
never fail. -/
def reserveStock (stock : StockStore) (_items : List OrderItem) :
    StockStore × Option StockError :=
  (stock, none)

/-- Modelled from the spec: the production reserveStock is absent from the
source (OrderService.reserveStock is a logging stub), so the per-item Stock
Ledger calls are taken from the spec: for each OrderItem in order, call
Adjust(productId, -quantity); stop at the first failing adjustment and
report its error, keeping the adjustments already applied. -/
def reserveStockLedger (stock : StockStore) :
    List OrderItem → StockStore × Option StockError
  | [] => (stock, none)
  | it :: rest =>
      match ProductRepository.UpdateStock stock it.productID (-it.quantity) with
      | .error e => (stock, some e)
      | .ok stock2 => reserveStockLedger stock2 rest

/-- OrderService.releaseStock as it stands in the source: it only logs each
item and returns nil — the stock ledger is never touched. -/
def releaseStock (stock : StockStore) (_items : List OrderItem) : StockStore :=
  stock

/-- Modelled from the spec: the production releaseStock is absent from the
source (OrderService.releaseStock is a logging stub), so the per-item Stock
Ledger calls are taken from the spec: issue a compensating positive
adjustment Adjust(productId, +quantity) for every OrderItem (CancelOrder
ignores release errors, so a failed adjustment leaves that row unchanged and
the loop continues). -/
def releaseStockLedger (stock : StockStore) (items : List OrderItem) : StockStore :=
  items.foldl (fun s it => applyAdjust s (it.productID, it.quantity)) stock

/-- Rendering of the stock ledger errors as they surface in Go error
strings. -/
def stockErrMsg : StockError → String
  | .productNotFound => "product not found"
  | .insufficientStock => "insufficient stock"

/-- An Order Store status update whose error the orchestrator only logs
(CreateOrder discards the UpdateStatus result in both its branches): on
failure the store is left as it was. -/
def setStatusLogged (store : OrderStore) (orderID status : String) (now : Nat) :
    OrderStore :=
  match OrderRepository.UpdateStatus store orderID status now with
  | .ok s => s
  | .error _ => store

/-- OrderService.CreateOrder, parameterized by the reserveStock effect
(`reserve`): validate the user, fetch the catalog mock, run the pricing
loop, persist the pending order, reserve stock (on failure: set the order
cancelled, ignoring the update error, and surface the reservation error),
set the order confirmed (ignoring the update error), and publish the
confirmed OrderEvent. `newID`/`itemID` are the uuid draws and `now` the
clock tick. -/
def CreateOrderWith
    (reserve : StockStore → List OrderItem → StockStore × Option StockError)
    (st : SagaState) (userID : String) (items : List ReqItem)
    (newID : String) (itemID : Nat → String) (now : Nat) :
    SagaState × Except String Order :=
  match validateUser userID with
  | .error e => (st, .error ("user validation failed: " ++ e))
  | .ok _ =>
      let products := getProductDetails (items.map (·.productID))
      match buildItems products items with
      | .error e => (st, .error e)
      | .ok (orderItems, totalPrice) =>
          let order : Order :=
            { id := "", userID := userID, items := orderItems,
              totalPrice := totalPrice, status := "pending",
              createdAt := 0, updatedAt := 0 }
          let created := OrderRepository.Create st.orders order newID itemID now
          match reserve st.stock created.2.items with
          | (stock2, some e) =>
              let orders3 := setStatusLogged created.1 newID "cancelled" now
              ({ orders := orders3, stock := stock2, events := st.events },
               .error ("failed to reserve stock: " ++ stockErrMsg e))
          | (stock2, none) =>
              let orders3 := setStatusLogged created.1 newID "confirmed" now
              let ev : OrderEvent :=
                { orderID := newID, userID := userID, totalPrice := totalPrice,
                  status := "confirmed", createdAt := now }
              ({ orders := orders3, stock := stock2, events := st.events ++ [ev] },
               .ok created.2)

/-- OrderService.CreateOrder exactly as in the source, with the stub
reserveStock (which never fails and never touches the ledger). -/
def CreateOrder (st : SagaState) (userID : String) (items : List ReqItem)
    (newID : String) (itemID : Nat → String) (now : Nat) :
    SagaState × Except String Order :=
  CreateOrderWith reserveStock st userID items newID itemID now

/-- OrderService.CreateOrder with the spec-modelled ledger-calling
reserveStock in place of the source's stub. -/
def CreateOrderLedger (st : SagaState) (userID : String) (items : List ReqItem)
    (newID : String) (itemID : Nat → String) (now : Nat) :
    SagaState × Except String Order :=
  CreateOrderWith reserveStockLedger st userID items newID itemID now

/-- OrderService.CancelOrder, parameterized by the releaseStock effect
(`release`, whose error the source ignores): fetch the order (not-found on a
miss), check ownership, reject orders already cancelled or completed,
release the stock, set the status cancelled and publish the cancelled
OrderEvent. The published event sets only OrderID, UserID and Status; the
other fields keep Go zero values. -/
def CancelOrderWith (release : StockStore → List OrderItem → StockStore)
    (st : SagaState) (orderID userID : String) (now : Nat) :
    SagaState × Except String Unit :=
  match getByID st.orders orderID with
  | none => (st, .error "order not found")
  | some order =>
      if order.userID ≠ userID then (st, .error "unauthorized")
      else if order.status = "cancelled" then (st, .error "order already cancelled")
      else if order.status = "completed" then (st, .error "cannot cancel completed order")
      else
        let stock2 := release st.stock order.items
        match OrderRepository.UpdateStatus st.orders orderID "cancelled" now with
        | .error e =>
            ({ st with stock := stock2 }, .error ("failed to cancel order: " ++ e))
        | .ok orders2 =>
            let ev : OrderEvent :=
              { orderID := orderID, userID := userID, totalPrice := 0,
                status := "cancelled", createdAt := 0 }
            ({ orders := orders2, stock := stock2, events := st.events ++ [ev] },
             .ok ())

/-- OrderService.CancelOrder exactly as in the source, with the stub
releaseStock (which never touches the ledger). -/
def CancelOrder (st : SagaState) (orderID userID : String) (now : Nat) :
    SagaState × Except String Unit :=
  CancelOrderWith releaseStock st orderID userID now

/-- OrderService.CancelOrder with the spec-modelled ledger-calling
releaseStock in place of the source's stub. -/
def CancelOrderLedger (st : SagaState) (orderID userID : String) (now : Nat) :
    SagaState × Except String Unit :=
  CancelOrderWith releaseStockLedger st orderID userID now

end OrderService

/-! Event consumer (notification-service RabbitMQConsumer) -/

/-- The acknowledgement a consumer issues for one delivery: Ack(false),
Nack(false, true) or Nack(false, false). -/
inductive AckAction
  | ack
  | nackRequeue
  | nackNoRequeue
deriving DecidableEq, Repr

namespace RabbitMQConsumer

/-- The error variable of RabbitMQConsumer.processMessage after the status
switch: the confirmed and cancelled branches call the notification handlers
(whose outcomes are the `confirmErr`/`cancelErr` arguments, none meaning a
nil error); any other status only logs a warning and leaves the error nil. -/
def handlerErr (confirmErr : String → String → ℚ → Option String)
    (cancelErr : String → String → Option String) (event : OrderEvent) :
    Option String :=
  if event.status = "confirmed" then confirmErr event.userID event.orderID event.totalPrice
  else if event.status = "cancelled" then cancelErr event.userID event.orderID
  else none

/-- RabbitMQConsumer.processMessage: `parsed` is the result of deserializing
the delivery body as an OrderEvent (none on a json.Unmarshal failure). A
parse failure is Nacked without requeue; a handler error is Nacked with
requeue; otherwise the delivery is Acked. -/
def processMessage (parsed : Option OrderEvent)
    (confirmErr : String → String → ℚ → Option String)
    (cancelErr : String → String → Option String) : AckAction :=
  match parsed with
  | none => .nackNoRequeue
  | some event =>
      match handlerErr confirmErr cancelErr event with
      | some _ => .nackRequeue
      | none => .ack

end RabbitMQConsumer


/-! Lemmas and claim theorems -/


theorem mem_setStock {db : StockStore} {p : String} {q : Int} {e : String × Int}
    (h : e ∈ setStock db p q) : e = (p, q) ∨ e ∈ db := by
  induction db with
  | nil => simp [setStock] at h
  | cons kv rest ih =>
      obtain ⟨k, v⟩ := kv
      simp only [setStock] at h
      by_cases hk : k = p
      · subst hk
        rw [if_pos rfl] at h
        rcases List.mem_cons.mp h with h2 | h2
        · exact Or.inl h2
        · exact Or.inr (List.mem_cons_of_mem _ h2)
      · rw [if_neg hk] at h
        rcases List.mem_cons.mp h with h2 | h2
        · exact Or.inr (by rw [h2]; exact List.mem_cons_self _ _)
        · rcases ih h2 with h3 | h3
          · exact Or.inl h3
          · exact Or.inr (List.mem_cons_of_mem _ h3)

theorem lookup_mem {db : StockStore} {p : String} {q : Int}
    (h : db.lookup p = some q) : (p, q) ∈ db := by
  induction db with
  | nil => simp [List.lookup] at h
  | cons kv rest ih =>
      obtain ⟨k, v⟩ := kv
      simp only [List.lookup] at h
      cases hbeq : p == k
      · rw [hbeq] at h
        exact List.mem_cons_of_mem _ (ih h)
      · rw [hbeq] at h
        have hpk : p = k := by simpa using hbeq
        have hvq : some v = some q := h
        injection hvq with hvq
        subst hpk
        subst hvq
        exact List.mem_cons_self _ _

theorem lookup_setStock_self {db : StockStore} {p : String} {q0 : Int}
    (h : db.lookup p = some q0) (q : Int) :
    (setStock db p q).lookup p = some q := by
  induction db with
  | nil => simp [List.lookup] at h
  | cons kv rest ih =>
      obtain ⟨k, v⟩ := kv
      by_cases hk : k = p
      · subst hk
        simp only [setStock, if_pos rfl]
        simp [List.lookup]
      · simp only [setStock, if_neg hk]
        have hbeq : (p == k) = false := by
          rw [beq_eq_false_iff_ne]
          exact fun hpk => hk hpk.symm
        simp only [List.lookup] at h ⊢
        rw [hbeq] at h ⊢
        exact ih h

theorem lookup_setStock_ne {db : StockStore} {p p' : String} (hne : p ≠ p') (q : Int) :
    (setStock db p q).lookup p' = db.lookup p' := by
  induction db with
  | nil => rfl
  | cons kv rest ih =>
      obtain ⟨k, v⟩ := kv
      by_cases hk : k = p
      · subst hk
        simp only [setStock, if_pos rfl, List.lookup]
        have hbeq : (p' == k) = false := by
          rw [beq_eq_false_iff_ne]
          exact fun hpk => hne (hpk.symm)
        rw [hbeq]
      · simp only [setStock, if_neg hk, List.lookup]
        cases hbeq : p' == k
        · rw [ih]
        · rfl

theorem updateStock_ok_eq {db db2 : StockStore} {p : String} {d : Int}
    (h : ProductRepository.UpdateStock db p d = .ok db2) :
    ∃ q, db.lookup p = some q ∧ 0 ≤ q + d ∧ db2 = setStock db p (q + d) := by
  unfold ProductRepository.UpdateStock at h
  cases hl : db.lookup p with
  | none => rw [hl] at h; exact absurd h (by simp)
  | some q =>
      rw [hl] at h
      simp only at h
      by_cases hneg : q + d < 0
      · rw [if_pos hneg] at h; exact absurd h (by simp)
      · rw [if_neg hneg] at h
        injection h with h
        exact ⟨q, rfl, le_of_not_lt hneg, h.symm⟩

theorem nonNeg_updateStock {db db2 : StockStore} {p : String} {d : Int}
    (hdb : NonNegStock db)
    (h : ProductRepository.UpdateStock db p d = .ok db2) : NonNegStock db2 := by
  unfold ProductRepository.UpdateStock at h
  cases hl : db.lookup p with
  | none => rw [hl] at h; exact absurd h (by simp)
  | some q =>
      rw [hl] at h
      simp only at h
      by_cases hneg : q + d < 0
      · rw [if_pos hneg] at h; exact absurd h (by simp)
      · rw [if_neg hneg] at h
        injection h with h
        subst h
        intro e he
        rcases mem_setStock he with he2 | he2
        · subst he2; exact le_of_not_lt hneg
        · exact hdb e he2

theorem nonNeg_applyAdjust {db : StockStore} (hdb : NonNegStock db)
    (call : String × Int) : NonNegStock (applyAdjust db call) := by
  unfold applyAdjust
  cases h : ProductRepository.UpdateStock db call.1 call.2 with
  | ok db2 => exact nonNeg_updateStock hdb h
  | error _ => exact hdb

theorem nonNeg_foldl {db : StockStore} (hdb : NonNegStock db)
    (calls : List (String × Int)) : NonNegStock (calls.foldl applyAdjust db) := by
  induction calls generalizing db with
  | nil => exact hdb
  | cons c rest ih => exact ih (nonNeg_applyAdjust hdb c)

/-- C1. Stock non-negativity invariant: starting from a table whose stored
quantities are all non-negative, every sequence of Adjust calls
(ProductRepository.UpdateStock, rejected calls rolling back) keeps every
stored quantity non-negative; and an adjustment that would drive a product
negative is rejected with the insufficient-stock error and leaves the table
unchanged. -/
theorem stock_nonneg_invariant (db : StockStore) (hdb : NonNegStock db)
    (calls : List (String × Int)) :
    NonNegStock (calls.foldl applyAdjust db)
    ∧ ∀ p d q, db.lookup p = some q → q + d < 0 →
        ProductRepository.UpdateStock db p d = .error .insufficientStock
        ∧ applyAdjust db (p, d) = db := by
  refine ⟨nonNeg_foldl hdb calls, ?_⟩
  intro p d q hl hneg
  have hupd : ProductRepository.UpdateStock db p d = .error .insufficientStock := by
    unfold ProductRepository.UpdateStock
    rw [hl]
    simp only
    rw [if_pos hneg]
  exact ⟨hupd, by unfold applyAdjust; rw [hupd]⟩

theorem stock_nonneg_invariant_witness :
    NonNegStock ((([("p1", -3), ("p1", -4)] : List (String × Int)).foldl applyAdjust
        [("p1", (5 : Int))]))
    ∧ ProductRepository.UpdateStock [("p1", (5 : Int))] "p1" (-6)
        = .error .insufficientStock
    ∧ applyAdjust [("p1", (5 : Int))] ("p1", -6) = [("p1", (5 : Int))] := by
  have h := stock_nonneg_invariant [("p1", (5 : Int))] (by decide) [("p1", -3), ("p1", -4)]
  exact ⟨h.1, h.2 "p1" (-6) 5 (by decide) (by decide)⟩

/-- C2. Stock Ledger Adjust contract: on a missing product id the call fails
with product-not-found; on a record with quantity q it fails with
insufficient stock exactly when q + d < 0, succeeds with the stored quantity
becoming q + d when q + d ≥ 0, and in particular succeeds for every positive
delta when the stored quantity is non-negative. -/
theorem updateStock_contract (db : StockStore) (p : String) (d q : Int) :
    (db.lookup p = none →
        ProductRepository.UpdateStock db p d = .error .productNotFound)
    ∧ (db.lookup p = some q →
        (ProductRepository.UpdateStock db p d = .error .insufficientStock ↔ q + d < 0)
        ∧ (0 ≤ q + d → ∃ db2, ProductRepository.UpdateStock db p d = .ok db2
            ∧ db2.lookup p = some (q + d))
        ∧ (0 ≤ q → 0 < d → ∃ db2, ProductRepository.UpdateStock db p d = .ok db2
            ∧ db2.lookup p = some (q + d))) := by
  constructor
  · intro hl
    unfold ProductRepository.UpdateStock
    rw [hl]
  · intro hl
    have hsucc : 0 ≤ q + d → ∃ db2, ProductRepository.UpdateStock db p d = .ok db2
        ∧ db2.lookup p = some (q + d) := by
      intro hge
      refine ⟨setStock db p (q + d), ?_, lookup_setStock_self hl (q + d)⟩
      unfold ProductRepository.UpdateStock
      rw [hl]
      simp only
      rw [if_neg (not_lt.mpr hge)]
    refine ⟨?_, hsucc, fun hq hd => hsucc (by linarith)⟩
    constructor
    · intro herr
      by_contra hneg
      obtain ⟨db2, hok, _⟩ := hsucc (le_of_not_lt hneg)
      rw [herr] at hok
      exact absurd hok (by simp)
    · intro hneg
      unfold ProductRepository.UpdateStock
      rw [hl]
      simp only
      rw [if_pos hneg]

theorem updateStock_contract_witness :
    ProductRepository.UpdateStock [("p1", (5 : Int))] "p1" (-7)
      = .error .insufficientStock
    ∧ ∃ db2, ProductRepository.UpdateStock [("p1", (5 : Int))] "p1" 2 = .ok db2
        ∧ db2.lookup "p1" = some 7
    ∧ ProductRepository.UpdateStock [] "p1" 1 = .error .productNotFound := by
  refine ⟨((updateStock_contract [("p1", 5)] "p1" (-7) 5).2 (by decide)).1.mpr (by decide), ?_⟩
  obtain ⟨db2, hok, hl⟩ :=
    ((updateStock_contract [("p1", 5)] "p1" 2 5).2 (by decide)).2.2 (by decide) (by decide)
  exact ⟨db2, hok, hl, (updateStock_contract [] "p1" 1 0).1 rfl⟩

theorem map_storedItems {α : Type} (f : OrderItem → α)
    (hf : ∀ it s1 s2, f { it with id := s1, orderID := s2 } = f it) :
    ∀ (oi : List OrderItem) (newID : String) (itemID : Nat → String),
    (storedItems oi newID itemID).map f = oi.map f := by
  intro oi
  induction oi with
  | nil => intro newID itemID; rfl
  | cons a l ih =>
      intro newID itemID
      simp only [storedItems, List.mapIdx_cons, List.map_cons] at ih ⊢
      rw [hf]
      congr 1
      exact ih newID fun i => itemID (i + 1)

theorem mem_storedItems {oi : List OrderItem} {newID : String} {itemID : Nat → String}
    {it : OrderItem} (h : it ∈ storedItems oi newID itemID) :
    ∃ it0 ∈ oi, it.productID = it0.productID ∧ it.quantity = it0.quantity
      ∧ it.price = it0.price := by
  induction oi generalizing itemID with
  | nil => simp [storedItems] at h
  | cons a l ih =>
      simp only [storedItems, List.mapIdx_cons] at h
      rcases List.mem_cons.mp h with h2 | h2
      · exact ⟨a, List.mem_cons_self _ _, by rw [h2], by rw [h2], by rw [h2]⟩
      · obtain ⟨it0, hm, he⟩ := @ih (fun i => itemID (i + 1)) h2
        exact ⟨it0, List.mem_cons_of_mem _ hm, he⟩

theorem getByID_append_fresh {store : OrderStore} {newID : String}
    (hfresh : ∀ o ∈ store, o.id ≠ newID) (stored : Order)
    (hid : stored.id = newID) :
    getByID (store ++ [stored]) newID = some stored := by
  induction store with
  | nil => simp [getByID, List.find?, hid]
  | cons o rest ih =>
      have ho : (o.id == newID) = false := by
        rw [beq_eq_false_iff_ne]
        exact hfresh o (List.mem_cons_self _ _)
      simp only [getByID, List.cons_append, List.find?, ho]
      exact ih fun o2 h2 => hfresh o2 (List.mem_cons_of_mem _ h2)

theorem getByID_map_setStatus (store : OrderStore) (orderID status : String)
    (now : Nat) :
    getByID (store.map fun o =>
        if o.id == orderID then { o with status := status, updatedAt := now } else o)
      orderID
      = (getByID store orderID).map
          fun o => { o with status := status, updatedAt := now } := by
  unfold getByID
  rw [List.find?_map]
  have hp : ((fun o : Order => o.id == orderID) ∘ fun o =>
        if o.id == orderID then { o with status := status, updatedAt := now } else o)
      = fun o : Order => o.id == orderID := by
    funext o
    by_cases ho : o.id = orderID <;> simp [Function.comp, ho]
  rw [hp]
  cases hf : List.find? (fun o : Order => o.id == orderID) store with
  | none => rfl
  | some o2 =>
      have h2 : o2.id = orderID := by simpa using List.find?_some hf
      simp [h2]

theorem updateStatus_of_getByID {store : OrderStore} {orderID : String} {o : Order}
    (h : getByID store orderID = some o) (status : String) (now : Nat) :
    ∃ store2, OrderRepository.UpdateStatus store orderID status now = .ok store2
      ∧ getByID store2 orderID = some { o with status := status, updatedAt := now } := by
  have hany : store.any (fun o2 => o2.id == orderID) = true := by
    rw [List.any_eq_true]
    have hmem := List.mem_of_find?_eq_some h
    have hp := List.find?_some h
    exact ⟨o, hmem, hp⟩
  refine ⟨store.map fun o2 =>
      if o2.id == orderID then { o2 with status := status, updatedAt := now } else o2,
    ?_, ?_⟩
  · unfold OrderRepository.UpdateStatus
    rw [if_pos hany]
  · rw [getByID_map_setStatus, h]
    rfl

theorem updateStatus_ok_length {store store2 : OrderStore} {orderID status : String}
    {now : Nat}
    (h : OrderRepository.UpdateStatus store orderID status now = .ok store2) :
    store2.length = store.length := by
  unfold OrderRepository.UpdateStatus at h
  split at h
  · injection h with h
    rw [h.symm, List.length_map]
  · exact absurd h (by simp)

/-! Shape lemmas for the orchestrator -/

namespace OrderService

theorem buildItems_ok {products : List (String × Product)} :
    ∀ {items : List ReqItem} {oi : List OrderItem} {t : ℚ},
    buildItems products items = .ok (oi, t) →
    t = (oi.map fun it => it.price * (it.quantity : ℚ)).sum
    ∧ oi.map (fun it => (it.productID, it.quantity))
        = items.map (fun ri => (ri.productID, ri.quantity))
    ∧ ∀ it ∈ oi, ∃ prod, products.lookup it.productID = some prod
        ∧ it.price = prod.price := by
  intro items
  induction items with
  | nil =>
      intro oi t h
      simp only [buildItems] at h
      injection h with h
      injection h with h1 h2
      subst h1
      subst h2
      simp
  | cons item rest ih =>
      intro oi t h
      simp only [buildItems] at h
      cases hl : products.lookup item.productID with
      | none => simp only [hl] at h; exact absurd h (by simp)
      | some product =>
          simp only [hl] at h
          by_cases hs : product.stock < item.quantity
          · rw [if_pos hs] at h; exact absurd h (by simp)
          · rw [if_neg hs] at h
            cases hrest : buildItems products rest with
            | error e => simp only [hrest] at h; exact absurd h (by simp)
            | ok pr =>
                obtain ⟨itemsRest, totalRest⟩ := pr
                simp only [hrest] at h
                injection h with h
                injection h with h1 h2
                subst h1
                subst h2
                obtain ⟨ht, hmap, hall⟩ := ih hrest
                refine ⟨by simp [ht], by simp [hmap], ?_⟩
                intro it hit
                rcases List.mem_cons.mp hit with hit | hit
                · subst hit
                  exact ⟨product, hl, rfl⟩
                · exact hall it hit

theorem setStatusLogged_ok {store store2 : OrderStore} {orderID status : String}
    {now : Nat}
    (h : OrderRepository.UpdateStatus store orderID status now = .ok store2) :
    setStatusLogged store orderID status now = store2 := by
  unfold setStatusLogged
  rw [h]

theorem setStatusLogged_length (store : OrderStore) (orderID status : String)
    (now : Nat) :
    (setStatusLogged store orderID status now).length = store.length := by
  unfold setStatusLogged
  cases h : OrderRepository.UpdateStatus store orderID status now with
  | ok s => exact updateStatus_ok_length h
  | error e => rfl

theorem createOrder_ok {st : SagaState} {userID : String} {items : List ReqItem}
    {newID : String} {itemID : Nat → String} {now : Nat}
    (hfresh : ∀ o ∈ st.orders, o.id ≠ newID)
    {st' : SagaState} {order : Order}
    (h : CreateOrder st userID items newID itemID now = (st', .ok order)) :
    ∃ oi t,
      buildItems (getProductDetails (items.map (·.productID))) items = .ok (oi, t)
      ∧ order = { id := newID, userID := userID, items := oi, totalPrice := t,
                  status := "pending", createdAt := now, updatedAt := now }
      ∧ getByID st'.orders newID = some
          { id := newID, userID := userID, items := storedItems oi newID itemID,
            totalPrice := t, status := "confirmed", createdAt := now, updatedAt := now }
      ∧ st'.events = st.events ++
          [{ orderID := newID, userID := userID, totalPrice := t,
             status := "confirmed", createdAt := now }]
      ∧ st'.stock = st.stock := by
  unfold CreateOrder CreateOrderWith at h
  cases hv : validateUser userID with
  | error e => simp only [hv] at h; exact absurd h (by simp)
  | ok u =>
      simp only [hv] at h
      cases hb : buildItems (getProductDetails (items.map (·.productID))) items with
      | error e => simp only [hb] at h; exact absurd h (by simp)
      | ok pr =>
          obtain ⟨oi, t⟩ := pr
          simp only [hb] at h
          simp only [reserveStock, OrderRepository.Create] at h
          have hget : getByID (st.orders ++
              [{ id := newID, userID := userID, items := storedItems oi newID itemID,
                 totalPrice := t, status := "pending", createdAt := now, updatedAt := now }])
              newID = some
              { id := newID, userID := userID, items := storedItems oi newID itemID,
                totalPrice := t, status := "pending", createdAt := now, updatedAt := now } :=
            getByID_append_fresh hfresh _ rfl
          obtain ⟨store2, hok, hget2⟩ := updateStatus_of_getByID hget "confirmed" now
          rw [setStatusLogged_ok hok] at h
          have hst : st' = { orders := store2, stock := st.stock,
                             events := st.events ++
                               [{ orderID := newID, userID := userID, totalPrice := t,
                                  status := "confirmed", createdAt := now }] } := by
            have h1 := congrArg Prod.fst h
            simp at h1
            exact h1.symm
          have hord : order = { id := newID, userID := userID, items := oi,
                                totalPrice := t, status := "pending", createdAt := now,
                                updatedAt := now } := by
            have h2 := congrArg Prod.snd h
            simp at h2
            exact h2.symm
          subst hst
          exact ⟨oi, t, rfl, hord, hget2, rfl, rfl⟩

theorem cancelOrder_shape
    (release : StockStore → List OrderItem → StockStore)
    (st : SagaState) (orderID userID : String) (now : Nat) :
    (getByID st.orders orderID = none →
        CancelOrderWith release st orderID userID now = (st, .error "order not found"))
    ∧ ∀ order, getByID st.orders orderID = some order →
        (order.userID ≠ userID →
            CancelOrderWith release st orderID userID now = (st, .error "unauthorized"))
        ∧ (order.userID = userID → order.status = "cancelled" →
            CancelOrderWith release st orderID userID now
              = (st, .error "order already cancelled"))
        ∧ (order.userID = userID → order.status ≠ "cancelled" →
            order.status = "completed" →
            CancelOrderWith release st orderID userID now
              = (st, .error "cannot cancel completed order"))
        ∧ (order.userID = userID → order.status ≠ "cancelled" →
            order.status ≠ "completed" →
            ∃ orders2,
              OrderRepository.UpdateStatus st.orders orderID "cancelled" now = .ok orders2
              ∧ CancelOrderWith release st orderID userID now
                  = ({ orders := orders2, stock := release st.stock order.items,
                       events := st.events ++
                         [{ orderID := orderID, userID := userID, totalPrice := 0,
                            status := "cancelled", createdAt := 0 }] }, .ok ())
              ∧ getByID orders2 orderID
                  = some { order with status := "cancelled", updatedAt := now }) := by
  constructor
  · intro hnone
    unfold CancelOrderWith
    rw [hnone]
  · intro order hsome
    unfold CancelOrderWith
    simp only [hsome]
    refine ⟨?_, ?_, ?_, ?_⟩
    · intro hne
      rw [if_pos hne]
    · intro hu hc
      rw [if_neg (by simp [hu]), if_pos hc]
    · intro hu hc hcomp
      rw [if_neg (by simp [hu]), if_neg hc, if_pos hcomp]
    · intro hu hc hcomp
      obtain ⟨orders2, hok, hget2⟩ := updateStatus_of_getByID hsome "cancelled" now
      refine ⟨orders2, hok, ?_, hget2⟩
      rw [if_neg (by simp [hu]), if_neg hc, if_neg hcomp, hok]

theorem release_lookup (p : String) :
    ∀ (its : List OrderItem) (stock : StockStore) (q : Int),
    stock.lookup p = some q → 0 ≤ q → (∀ it ∈ its, 0 ≤ it.quantity) →
    (releaseStockLedger stock its).lookup p
      = some (q + ((its.filter fun it => it.productID == p).map (·.quantity)).sum) := by
  intro its
  induction its with
  | nil =>
      intro stock q hl _ _
      simpa [releaseStockLedger] using hl
  | cons it rest ih =>
      intro stock q hl hq hpos
      have hqit : 0 ≤ it.quantity := hpos it (List.mem_cons_self _ _)
      have hrest : ∀ it2 ∈ rest, 0 ≤ it2.quantity :=
        fun it2 h2 => hpos it2 (List.mem_cons_of_mem _ h2)
      simp only [releaseStockLedger, List.foldl_cons] at ih ⊢
      by_cases hp : it.productID = p
      · have hupd : ProductRepository.UpdateStock stock it.productID it.quantity
            = .ok (setStock stock p (q + it.quantity)) := by
          unfold ProductRepository.UpdateStock
          rw [hp, hl]
          simp only
          rw [if_neg (by omega)]
        have happ : applyAdjust stock (it.productID, it.quantity)
            = setStock stock p (q + it.quantity) := by
          unfold applyAdjust
          rw [hupd]
        rw [happ]
        have hl2 : (setStock stock p (q + it.quantity)).lookup p = some (q + it.quantity) :=
          lookup_setStock_self hl _
        rw [ih _ _ hl2 (by omega) hrest]
        have hfil : (List.filter (fun it2 => it2.productID == p) (it :: rest))
            = it :: List.filter (fun it2 => it2.productID == p) rest := by
          simp [List.filter_cons, hp]
        rw [hfil]
        simp only [List.map_cons, List.sum_cons]
        congr 1
        ring
      · have happ : (applyAdjust stock (it.productID, it.quantity)).lookup p = some q := by
          unfold applyAdjust
          cases hres : ProductRepository.UpdateStock stock it.productID it.quantity with
          | error e => exact hl
          | ok db2 =>
              obtain ⟨q0, _, _, hdb2⟩ := updateStock_ok_eq hres
              rw [hdb2]
              rw [lookup_setStock_ne hp]
              exact hl
        rw [ih _ _ happ hq hrest]
        have hfil : (List.filter (fun it2 => it2.productID == p) (it :: rest))
            = List.filter (fun it2 => it2.productID == p) rest := by
          simp [List.filter_cons, hp]
        rw [hfil]

theorem createOrder_reserveFail
    (reserve : StockStore → List OrderItem → StockStore × Option StockError)
    {st : SagaState} {userID : String} {items : List ReqItem}
    {newID : String} {itemID : Nat → String} {now : Nat}
    (hfresh : ∀ o ∈ st.orders, o.id ≠ newID)
    (hu : validateUser userID = .ok ())
    {oi : List OrderItem} {t : ℚ}
    (hb : buildItems (getProductDetails (items.map (·.productID))) items = .ok (oi, t))
    {stock2 : StockStore} {e : StockError}
    (hr : reserve st.stock oi = (stock2, some e)) :
    ∃ orders2,
      OrderRepository.UpdateStatus (st.orders ++
          [{ id := newID, userID := userID, items := storedItems oi newID itemID,
             totalPrice := t, status := "pending", createdAt := now, updatedAt := now }])
          newID "cancelled" now = .ok orders2
      ∧ CreateOrderWith reserve st userID items newID itemID now
          = ({ orders := orders2, stock := stock2, events := st.events },
             .error ("failed to reserve stock: " ++ stockErrMsg e))
      ∧ getByID orders2 newID = some
          { id := newID, userID := userID, items := storedItems oi newID itemID,
            totalPrice := t, status := "cancelled", createdAt := now, updatedAt := now } := by
  obtain ⟨orders2, hok, hget2⟩ := updateStatus_of_getByID
      (getByID_append_fresh hfresh
        { id := newID, userID := userID, items := storedItems oi newID itemID,
          totalPrice := t, status := "pending", createdAt := now, updatedAt := now } rfl)
      "cancelled" now
  refine ⟨orders2, hok, ?_, hget2⟩
  unfold CreateOrderWith
  simp only [hu, hb, OrderRepository.Create]
  rw [hr, setStatusLogged_ok hok]

end OrderService

/-! Claims about the orchestrator -/

/-- C3 (counterexample): a two-item order against ledger p1 ↦ 5, p2 ↦ 0,
requesting 3 of p1 and 2 of p2: the p1 reservation succeeds (5 → 2), the p2
reservation fails, CreateOrder reports the failure — but the final ledger
still shows p1 ↦ 2, not the restored 5 the claim requires, so the earlier
reservation was not reversed. -/
theorem claim_C3_counterexample :
    ((OrderService.CreateOrderLedger
        { orders := [], stock := [("p1", 5), ("p2", 0)], events := [] } "u1"
        [{ productID := "p1", quantity := 3 }, { productID := "p2", quantity := 2 }]
        "o1" (fun i => "i" ++ toString i) 7).2).isOk = false
    ∧ ((OrderService.CreateOrderLedger
        { orders := [], stock := [("p1", 5), ("p2", 0)], events := [] } "u1"
        [{ productID := "p1", quantity := 3 }, { productID := "p2", quantity := 2 }]
        "o1" (fun i => "i" ++ toString i) 7).1.stock).lookup "p1" = some 2
    ∧ ¬ ((OrderService.CreateOrderLedger
        { orders := [], stock := [("p1", 5), ("p2", 0)], events := [] } "u1"
        [{ productID := "p1", quantity := 3 }, { productID := "p2", quantity := 2 }]
        "o1" (fun i => "i" ++ toString i) 7).1.stock).lookup "p1" = some 5 := by
  exact ⟨by decide, by decide, by decide⟩

/-- C3 (amended): when a stock adjustment fails during reservation (with the
spec-modelled ledger-calling reserveStock; the source's own reserveStock is
a stub that cannot fail), CreateOrder transitions the persisted order to
cancelled and surfaces the reservation error to the caller — the order never
ends pending or confirmed — but the adjustments already applied for earlier
items are NOT reversed: the final ledger state is exactly the
partially-reserved state returned by the reservation loop, and no
compensating positive adjustments are issued. -/
theorem claim_C3_no_compensation (st : SagaState) (userID : String)
    (items : List ReqItem) (newID : String) (itemID : Nat → String) (now : Nat)
    (hfresh : ∀ o ∈ st.orders, o.id ≠ newID)
    (hu : OrderService.validateUser userID = .ok ())
    {oi : List OrderItem} {t : ℚ}
    (hb : OrderService.buildItems
        (OrderService.getProductDetails (items.map (·.productID))) items = .ok (oi, t))
    {stock2 : StockStore} {e : StockError}
    (hr : OrderService.reserveStockLedger st.stock oi = (stock2, some e)) :
    ∃ orders2,
      OrderService.CreateOrderLedger st userID items newID itemID now
        = ({ orders := orders2, stock := stock2, events := st.events },
           .error ("failed to reserve stock: " ++ OrderService.stockErrMsg e))
      ∧ getByID orders2 newID = some
          { id := newID, userID := userID, items := storedItems oi newID itemID,
            totalPrice := t, status := "cancelled", createdAt := now, updatedAt := now } := by
  obtain ⟨orders2, _, heq, hget⟩ := OrderService.createOrder_reserveFail
      OrderService.reserveStockLedger hfresh hu hb hr
  exact ⟨orders2, heq, hget⟩

theorem claim_C3_no_compensation_witness :
    ∃ res : SagaState × Except String Order,
      OrderService.CreateOrderLedger
          { orders := [], stock := [("p1", 5), ("p2", 0)], events := [] } "u1"
          [{ productID := "p1", quantity := 3 }, { productID := "p2", quantity := 2 }]
          "o2" (fun i => "i" ++ toString i) 7 = res
      ∧ (res.2).isOk = false
      ∧ (res.1.stock).lookup "p1" = some 2
      ∧ ∃ o, getByID res.1.orders "o2" = some o ∧ o.status = "cancelled" := by
  obtain ⟨orders2, heq, hget⟩ := claim_C3_no_compensation
      { orders := [], stock := [("p1", 5), ("p2", 0)], events := [] } "u1"
      [{ productID := "p1", quantity := 3 }, { productID := "p2", quantity := 2 }]
      "o2" (fun i => "i" ++ toString i) 7 (by simp) rfl rfl rfl
  refine ⟨_, heq, rfl, rfl, ⟨_, hget, rfl⟩⟩

/-- C4: every order successfully created by CreateOrder is persisted with
total_price equal to the sum over its stored items of unit price times
quantity, the stored items mirror the requested product ids and quantities,
and every stored item's price is the catalog-fetched price for its product
(the request carries no price field at all, so no client price is ever
used). -/
theorem claim_C4_total_price (st : SagaState) (userID : String) (items : List ReqItem)
    (newID : String) (itemID : Nat → String) (now : Nat)
    (hfresh : ∀ o ∈ st.orders, o.id ≠ newID)
    {st' : SagaState} {order : Order}
    (h : OrderService.CreateOrder st userID items newID itemID now = (st', .ok order)) :
    ∃ stored, getByID st'.orders newID = some stored
      ∧ stored.totalPrice = (stored.items.map fun it => it.price * (it.quantity : ℚ)).sum
      ∧ order.totalPrice = stored.totalPrice
      ∧ stored.items.map (fun it => (it.productID, it.quantity))
          = items.map (fun ri => (ri.productID, ri.quantity))
      ∧ ∀ it ∈ stored.items, ∃ prod,
          (OrderService.getProductDetails (items.map (·.productID))).lookup it.productID
            = some prod ∧ it.price = prod.price := by
  obtain ⟨oi, t, hb, hord, hget, _, _⟩ := OrderService.createOrder_ok hfresh h
  obtain ⟨ht, hmap, hall⟩ := OrderService.buildItems_ok hb
  refine ⟨_, hget, ?_, ?_, ?_, ?_⟩
  · show t = ((storedItems oi newID itemID).map fun it => it.price * (it.quantity : ℚ)).sum
    rw [map_storedItems (fun it => it.price * (it.quantity : ℚ)) (fun it s1 s2 => rfl)]
    exact ht
  · show order.totalPrice = t
    rw [hord]
  · show (storedItems oi newID itemID).map (fun it => (it.productID, it.quantity))
        = items.map (fun ri => (ri.productID, ri.quantity))
    rw [map_storedItems (fun it => (it.productID, it.quantity)) (fun it s1 s2 => rfl)]
    exact hmap
  · intro it hit
    obtain ⟨it0, hm0, hpid, _, hpr⟩ := mem_storedItems hit
    obtain ⟨prod, hlp, hprice⟩ := hall it0 hm0
    refine ⟨prod, ?_, ?_⟩
    · rw [hpid]
      exact hlp
    · rw [hpr]
      exact hprice

theorem claim_C4_total_price_witness :
    ∃ stored,
      getByID ((OrderService.CreateOrder { orders := [], stock := [], events := [] }
          "u1" [{ productID := "p1", quantity := 2 }] "o1"
          (fun i => "i" ++ toString i) 7).1.orders) "o1" = some stored
      ∧ stored.totalPrice = (stored.items.map fun it => it.price * (it.quantity : ℚ)).sum
      ∧ stored.items.map (fun it => (it.productID, it.quantity)) = [("p1", 2)]
      ∧ ∀ it ∈ stored.items, ∃ prod,
          (OrderService.getProductDetails ["p1"]).lookup it.productID = some prod
            ∧ it.price = prod.price := by
  obtain ⟨stored, h1, h2, _, h4, h5⟩ := claim_C4_total_price
      { orders := [], stock := [], events := [] } "u1"
      [{ productID := "p1", quantity := 2 }] "o1" (fun i => "i" ++ toString i) 7
      (by simp) rfl
  exact ⟨stored, h1, h2, h4, h5⟩

/-- C5 (counterexample): OrderRepository.UpdateStatus happily moves an order
from completed back to pending — the claim requires this transition to fail
with InvalidTransition and leave the stored status unchanged. -/
theorem claim_C5_counterexample :
    OrderRepository.UpdateStatus
        [{ id := "o1", userID := "u1", items := [], totalPrice := 0,
           status := "completed", createdAt := 1, updatedAt := 1 }] "o1" "pending" 5
      = .ok [{ id := "o1", userID := "u1", items := [], totalPrice := 0,
               status := "pending", createdAt := 1, updatedAt := 5 }] := by
  rfl

/-- C5 (amended): OrderRepository.UpdateStatus enforces no state machine at
all: for any existing order it unconditionally overwrites the status with
the requested string (any transition, forward or backward, succeeds), and it
fails only when no order with the given id exists, with an order-not-found
error — no InvalidTransition error exists in the code. -/
theorem claim_C5_unrestricted (store : OrderStore) (orderID status : String)
    (now : Nat) :
    (store.any (fun o => o.id == orderID) = false →
        OrderRepository.UpdateStatus store orderID status now
          = .error "order not found")
    ∧ ∀ o, getByID store orderID = some o →
        ∃ store2, OrderRepository.UpdateStatus store orderID status now = .ok store2
          ∧ getByID store2 orderID = some { o with status := status, updatedAt := now } := by
  constructor
  · intro hnone
    unfold OrderRepository.UpdateStatus
    rw [if_neg (by simp [hnone])]
  · intro o ho
    exact updateStatus_of_getByID ho status now

theorem claim_C5_unrestricted_witness :
    ∃ store2,
      OrderRepository.UpdateStatus
          [{ id := "o2", userID := "u1", items := [], totalPrice := 0,
             status := "completed", createdAt := 1, updatedAt := 1 }] "o2" "pending" 5
        = .ok store2
      ∧ getByID store2 "o2"
          = some { id := "o2", userID := "u1", items := [], totalPrice := 0,
                   status := "pending", createdAt := 1, updatedAt := 5 } := by
  obtain ⟨store2, h1, h2⟩ := (claim_C5_unrestricted
      [{ id := "o2", userID := "u1", items := [], totalPrice := 0,
         status := "completed", createdAt := 1, updatedAt := 1 }] "o2" "pending" 5).2
      { id := "o2", userID := "u1", items := [], totalPrice := 0,
        status := "completed", createdAt := 1, updatedAt := 1 } rfl
  exact ⟨store2, h1, h2⟩

/-- C6 (counterexample): with a non-empty user id and an EMPTY items list,
OrderService.CreateOrder succeeds and stores an order (with no items and
total price 0) instead of failing with InvalidInput — the empty-items check
exists only in the HTTP layer's request binding, not in this function. -/
theorem claim_C6_counterexample :
    ((OrderService.CreateOrder { orders := [], stock := [], events := [] } "u1" []
        "o1" (fun i => "i" ++ toString i) 7).2).isOk = true
    ∧ ((OrderService.CreateOrder { orders := [], stock := [], events := [] } "u1" []
        "o1" (fun i => "i" ++ toString i) 7).1.orders).length = 1 := by
  exact ⟨by decide, by decide⟩

/-- C6 (amended): an empty userId makes CreateOrder fail with the
user-validation error and leave the whole state untouched; an empty items
list, however, is NOT rejected — CreateOrder succeeds, returning an order
with no items and total price 0 and adding one order to the store. -/
theorem claim_C6_validation (st : SagaState) (userID : String) (items : List ReqItem)
    (newID : String) (itemID : Nat → String) (now : Nat) :
    (userID = "" →
        OrderService.CreateOrder st userID items newID itemID now
          = (st, .error "user validation failed: user ID is required"))
    ∧ (userID ≠ "" → items = [] →
        ∃ order, (OrderService.CreateOrder st userID items newID itemID now).2 = .ok order
          ∧ order.items = [] ∧ order.totalPrice = 0
          ∧ ((OrderService.CreateOrder st userID items newID itemID now).1.orders).length
              = st.orders.length + 1) := by
  constructor
  · intro hu
    unfold OrderService.CreateOrder OrderService.CreateOrderWith OrderService.validateUser
    rw [if_pos hu]
    rfl
  · intro hu hitems
    subst hitems
    unfold OrderService.CreateOrder OrderService.CreateOrderWith
    have hv : OrderService.validateUser userID = .ok () := by
      unfold OrderService.validateUser
      rw [if_neg hu]
    simp only [hv, List.map_nil, OrderService.buildItems, OrderService.reserveStock,
               OrderRepository.Create]
    refine ⟨_, rfl, rfl, rfl, ?_⟩
    show (OrderService.setStatusLogged (st.orders ++
        [{ id := newID, userID := userID, items := storedItems [] newID itemID,
           totalPrice := 0, status := "pending", createdAt := now, updatedAt := now }])
        newID "confirmed" now).length = st.orders.length + 1
    rw [OrderService.setStatusLogged_length, List.length_append]
    rfl

theorem claim_C6_validation_witness :
    OrderService.CreateOrder { orders := [], stock := [], events := [] } ""
        [{ productID := "p1", quantity := 1 }] "o1" (fun i => "i" ++ toString i) 7
      = ({ orders := [], stock := [], events := [] },
         .error "user validation failed: user ID is required")
    ∧ ∃ order,
        (OrderService.CreateOrder { orders := [], stock := [], events := [] } "u1" []
          "o1" (fun i => "i" ++ toString i) 7).2 = .ok order
        ∧ order.items = [] ∧ order.totalPrice = 0
        ∧ ((OrderService.CreateOrder { orders := [], stock := [], events := [] } "u1" []
            "o1" (fun i => "i" ++ toString i) 7).1.orders).length = 0 + 1 := by
  constructor
  · exact (claim_C6_validation { orders := [], stock := [], events := [] } ""
      [{ productID := "p1", quantity := 1 }] "o1" (fun i => "i" ++ toString i) 7).1 rfl
  · obtain ⟨order, h1, h2, h3, h4⟩ :=
      (claim_C6_validation { orders := [], stock := [], events := [] } "u1" []
        "o1" (fun i => "i" ++ toString i) 7).2 (by decide) rfl
    exact ⟨order, h1, h2, h3, h4⟩

/-- C7: CancelOrder (with the spec-modelled ledger-calling releaseStock; the
source's own releaseStock is a stub) fails with not-found when the order
does not exist, with unauthorized when the order belongs to another user,
and when the order is already cancelled or is completed; otherwise it
succeeds, issues a compensating positive adjustment for every OrderItem —
for any product held non-negatively in the ledger the resulting quantity
grows by the total quantity of that product among the order's items — and
the stored order moves to cancelled. -/
theorem claim_C7_cancel (st : SagaState) (orderID userID : String) (now : Nat) :
    (getByID st.orders orderID = none →
        OrderService.CancelOrderLedger st orderID userID now
          = (st, .error "order not found"))
    ∧ ∀ order, getByID st.orders orderID = some order →
        (order.userID ≠ userID →
            OrderService.CancelOrderLedger st orderID userID now
              = (st, .error "unauthorized"))
        ∧ (order.userID = userID → order.status = "cancelled" →
            OrderService.CancelOrderLedger st orderID userID now
              = (st, .error "order already cancelled"))
        ∧ (order.userID = userID → order.status ≠ "cancelled" →
            order.status = "completed" →
            OrderService.CancelOrderLedger st orderID userID now
              = (st, .error "cannot cancel completed order"))
        ∧ (order.userID = userID → order.status ≠ "cancelled" →
            order.status ≠ "completed" →
            (OrderService.CancelOrderLedger st orderID userID now).1.stock
              = OrderService.releaseStockLedger st.stock order.items
            ∧ (OrderService.CancelOrderLedger st orderID userID now).2 = .ok ()
            ∧ getByID ((OrderService.CancelOrderLedger st orderID userID now).1.orders)
                orderID = some { order with status := "cancelled", updatedAt := now }
            ∧ ∀ p q, st.stock.lookup p = some q → 0 ≤ q →
                (∀ it ∈ order.items, 0 ≤ it.quantity) →
                ((OrderService.CancelOrderLedger st orderID userID now).1.stock).lookup p
                  = some (q + ((order.items.filter fun it => it.productID == p).map
                      (·.quantity)).sum)) := by
  obtain ⟨h0, hrest⟩ :=
    OrderService.cancelOrder_shape OrderService.releaseStockLedger st orderID userID now
  refine ⟨h0, ?_⟩
  intro order hsome
  obtain ⟨h1, h2, h3, h4⟩ := hrest order hsome
  refine ⟨h1, h2, h3, ?_⟩
  intro hu hc hcomp
  obtain ⟨orders2, hok, heq, hget⟩ := h4 hu hc hcomp
  unfold OrderService.CancelOrderLedger
  rw [heq]
  refine ⟨rfl, rfl, hget, ?_⟩
  intro p q hl hq hpos
  exact OrderService.release_lookup p order.items st.stock q hl hq hpos

theorem claim_C7_cancel_witness :
    (OrderService.CancelOrderLedger
        { orders := [{ id := "o1", userID := "u1",
                       items := [{ id := "i0", orderID := "o1", productID := "p1",
                                   quantity := 3, price := 99.99 }],
                       totalPrice := 299.97, status := "confirmed",
                       createdAt := 7, updatedAt := 7 }],
          stock := [("p1", 2)], events := [] } "o1" "u1" 9).2 = .ok ()
    ∧ (∃ o, getByID ((OrderService.CancelOrderLedger
        { orders := [{ id := "o1", userID := "u1",
                       items := [{ id := "i0", orderID := "o1", productID := "p1",
                                   quantity := 3, price := 99.99 }],
                       totalPrice := 299.97, status := "confirmed",
                       createdAt := 7, updatedAt := 7 }],
          stock := [("p1", 2)], events := [] } "o1" "u1" 9).1.orders) "o1" = some o
        ∧ o.status = "cancelled")
    ∧ ((OrderService.CancelOrderLedger
        { orders := [{ id := "o1", userID := "u1",
                       items := [{ id := "i0", orderID := "o1", productID := "p1",
                                   quantity := 3, price := 99.99 }],
                       totalPrice := 299.97, status := "confirmed",
                       createdAt := 7, updatedAt := 7 }],
          stock := [("p1", 2)], events := [] } "o1" "u1" 9).1.stock).lookup "p1"
      = some 5 := by
  obtain ⟨_, _, _, h4⟩ := (claim_C7_cancel
      { orders := [{ id := "o1", userID := "u1",
                     items := [{ id := "i0", orderID := "o1", productID := "p1",
                                 quantity := 3, price := 99.99 }],
                     totalPrice := 299.97, status := "confirmed",
                     createdAt := 7, updatedAt := 7 }],
        stock := [("p1", 2)], events := [] } "o1" "u1" 9).2
      { id := "o1", userID := "u1",
        items := [{ id := "i0", orderID := "o1", productID := "p1",
                    quantity := 3, price := 99.99 }],
        totalPrice := 299.97, status := "confirmed",
        createdAt := 7, updatedAt := 7 } rfl
  obtain ⟨_, hok, hget, hlook⟩ := h4 rfl (by decide) (by decide)
  refine ⟨hok, ⟨_, hget, rfl⟩, ?_⟩
  exact (hlook "p1" 2 rfl (by decide) (by decide)).trans (by decide)

/-- C8: processMessage issues exactly one acknowledgement per delivery: a
deserialization failure is rejected permanently without requeue, a handler
error is rejected with requeue (redelivery), and a successful handler run
(or an unknown status, which leaves the error nil) is acknowledged. -/
theorem claim_C8_ack_protocol (parsed : Option OrderEvent)
    (confirmErr : String → String → ℚ → Option String)
    (cancelErr : String → String → Option String) :
    (parsed = none →
        RabbitMQConsumer.processMessage parsed confirmErr cancelErr = .nackNoRequeue)
    ∧ (∀ event, parsed = some event →
        ((RabbitMQConsumer.handlerErr confirmErr cancelErr event).isSome = true →
            RabbitMQConsumer.processMessage parsed confirmErr cancelErr = .nackRequeue)
        ∧ (RabbitMQConsumer.handlerErr confirmErr cancelErr event = none →
            RabbitMQConsumer.processMessage parsed confirmErr cancelErr = .ack))
    ∧ (RabbitMQConsumer.processMessage parsed confirmErr cancelErr = .ack
        ∨ RabbitMQConsumer.processMessage parsed confirmErr cancelErr = .nackRequeue
        ∨ RabbitMQConsumer.processMessage parsed confirmErr cancelErr = .nackNoRequeue) := by
  refine ⟨?_, ?_, ?_⟩
  · intro h
    subst h
    rfl
  · intro event h
    subst h
    constructor
    · intro herr
      simp only [RabbitMQConsumer.processMessage]
      cases he : RabbitMQConsumer.handlerErr confirmErr cancelErr event with
      | none => rw [he] at herr; exact absurd herr (by simp)
      | some msg => simp only [he]
    · intro herr
      simp only [RabbitMQConsumer.processMessage, herr]
  · cases parsed with
    | none => simp [RabbitMQConsumer.processMessage]
    | some event =>
        simp only [RabbitMQConsumer.processMessage]
        cases RabbitMQConsumer.handlerErr confirmErr cancelErr event <;> simp

theorem claim_C8_ack_protocol_witness :
    RabbitMQConsumer.processMessage none (fun _ _ _ => none) (fun _ _ => none)
      = .nackNoRequeue
    ∧ RabbitMQConsumer.processMessage
        (some { orderID := "o1", userID := "u1", totalPrice := 0,
                status := "confirmed", createdAt := 0 })
        (fun _ _ _ => some "send failed") (fun _ _ => none) = .nackRequeue
    ∧ RabbitMQConsumer.processMessage
        (some { orderID := "o1", userID := "u1", totalPrice := 0,
                status := "confirmed", createdAt := 0 })
        (fun _ _ _ => none) (fun _ _ => none) = .ack := by
  refine ⟨?_, ?_, ?_⟩
  · exact (claim_C8_ack_protocol none (fun _ _ _ => none) (fun _ _ => none)).1 rfl
  · exact ((claim_C8_ack_protocol
        (some { orderID := "o1", userID := "u1", totalPrice := 0,
                status := "confirmed", createdAt := 0 })
        (fun _ _ _ => some "send failed") (fun _ _ => none)).2.1
      { orderID := "o1", userID := "u1", totalPrice := 0,
        status := "confirmed", createdAt := 0 } rfl).1 rfl
  · exact ((claim_C8_ack_protocol
        (some { orderID := "o1", userID := "u1", totalPrice := 0,
                status := "confirmed", createdAt := 0 })
        (fun _ _ _ => none) (fun _ _ => none)).2.1
      { orderID := "o1", userID := "u1", totalPrice := 0,
        status := "confirmed", createdAt := 0 } rfl).2 rfl

/-- C9 (counterexample): cancelling a confirmed order whose total price is
99.99 and whose creation tick is 7 publishes a cancelled event whose total
price is 0 and whose timestamp is 0 — the cancelled event does not carry the
order's total price or any timestamp of it. -/
theorem claim_C9_counterexample :
    (OrderService.CancelOrder
        { orders := [{ id := "o1", userID := "u1", items := [], totalPrice := 99.99,
                       status := "confirmed", createdAt := 7, updatedAt := 7 }],
          stock := [], events := [] } "o1" "u1" 9).1.events
      = [{ orderID := "o1", userID := "u1", totalPrice := 0,
           status := "cancelled", createdAt := 0 }]
    ∧ (0 : ℚ) ≠ 99.99
    ∧ (0 : Nat) ≠ 7 := by
  refine ⟨rfl, by norm_num, by decide⟩

/-- C9 (amended): the confirmed OrderEvent published by CreateOrder carries
the order id, the user id, the order's total price, the confirmed status and
the creation tick; the cancelled OrderEvent published by CancelOrder carries
only the order id, the user id and the cancelled status — its total price
and timestamp fields are the Go zero values, regardless of the order. -/
theorem claim_C9_event_fields :
    (∀ st userID items newID itemID now st' order,
        (∀ o ∈ st.orders, o.id ≠ newID) →
        OrderService.CreateOrder st userID items newID itemID now = (st', .ok order) →
        st'.events = st.events ++
          [{ orderID := newID, userID := userID, totalPrice := order.totalPrice,
             status := "confirmed", createdAt := now }])
    ∧ (∀ st orderID userID now order,
        getByID st.orders orderID = some order →
        order.userID = userID → order.status ≠ "cancelled" →
        order.status ≠ "completed" →
        (OrderService.CancelOrder st orderID userID now).1.events = st.events ++
          [{ orderID := orderID, userID := userID, totalPrice := 0,
             status := "cancelled", createdAt := 0 }]) := by
  constructor
  · intro st userID items newID itemID now st' order hfresh h
    obtain ⟨oi, t, _, hord, _, hev, _⟩ := OrderService.createOrder_ok hfresh h
    rw [hev, hord]
  · intro st orderID userID now order hsome hu hc hcomp
    obtain ⟨_, _, _, h4⟩ :=
      (OrderService.cancelOrder_shape OrderService.releaseStock st orderID userID now).2
        order hsome
    obtain ⟨orders2, hok, heq, _⟩ := h4 hu hc hcomp
    show (OrderService.CancelOrderWith OrderService.releaseStock st orderID userID
        now).1.events = _
    rw [heq]

theorem claim_C9_event_fields_witness :
    ((OrderService.CreateOrder { orders := [], stock := [], events := [] } "u1"
        [{ productID := "p1", quantity := 2 }] "o1"
        (fun i => "i" ++ toString i) 7).1).events
      = [{ orderID := "o1", userID := "u1",
           totalPrice := ((OrderService.CreateOrder
               { orders := [], stock := [], events := [] } "u1"
               [{ productID := "p1", quantity := 2 }] "o1"
               (fun i => "i" ++ toString i) 7).1.events.headD
                 { orderID := "", userID := "", totalPrice := 0, status := "",
                   createdAt := 0 }).totalPrice,
           status := "confirmed", createdAt := 7 }]
    ∧ (OrderService.CancelOrder
        { orders := [{ id := "o1", userID := "u1", items := [], totalPrice := 99.99,
                       status := "confirmed", createdAt := 7, updatedAt := 7 }],
          stock := [], events := [] } "o1" "u1" 9).1.events
      = [{ orderID := "o1", userID := "u1", totalPrice := 0,
           status := "cancelled", createdAt := 0 }] := by
  constructor
  · have h := claim_C9_event_fields.1 { orders := [], stock := [], events := [] } "u1"
      [{ productID := "p1", quantity := 2 }] "o1" (fun i => "i" ++ toString i) 7
      ((OrderService.CreateOrder { orders := [], stock := [], events := [] } "u1"
        [{ productID := "p1", quantity := 2 }] "o1" (fun i => "i" ++ toString i) 7).1)
      ((OrderService.CreateOrder { orders := [], stock := [], events := [] } "u1"
        [{ productID := "p1", quantity := 2 }] "o1" (fun i => "i" ++ toString i) 7).2.toOption.getD
          { id := "", userID := "", items := [], totalPrice := 0, status := "",
            createdAt := 0, updatedAt := 0 })
      (by simp) rfl
    rw [h]
    rfl
  · exact claim_C9_event_fields.2
      { orders := [{ id := "o1", userID := "u1", items := [], totalPrice := 99.99,
                     status := "confirmed", createdAt := 7, updatedAt := 7 }],
        stock := [], events := [] } "o1" "u1" 9
      { id := "o1", userID := "u1", items := [], totalPrice := 99.99,
        status := "confirmed", createdAt := 7, updatedAt := 7 }
      rfl rfl (by decide) (by decide)

/-- C10: the Order value returned by a successful CreateOrder still has
status pending — the in-memory struct created before the status transition
is returned unchanged — while the stored order has already been moved to
confirmed, so the returned status never reflects the confirmed state. -/
theorem claim_C10_returned_pending (st : SagaState) (userID : String)
    (items : List ReqItem) (newID : String) (itemID : Nat → String) (now : Nat)
    (hfresh : ∀ o ∈ st.orders, o.id ≠ newID)
    {st' : SagaState} {order : Order}
    (h : OrderService.CreateOrder st userID items newID itemID now = (st', .ok order)) :
    order.status = "pending"
    ∧ ∃ stored, getByID st'.orders newID = some stored ∧ stored.status = "confirmed" := by
  obtain ⟨oi, t, _, hord, hget, _, _⟩ := OrderService.createOrder_ok hfresh h
  refine ⟨?_, _, hget, rfl⟩
  rw [hord]

theorem claim_C10_returned_pending_witness :
    ∃ order,
      (OrderService.CreateOrder { orders := [], stock := [], events := [] } "u1"
          [{ productID := "p1", quantity := 2 }] "o1"
          (fun i => "i" ++ toString i) 7).2 = .ok order
      ∧ order.status = "pending"
      ∧ ∃ stored,
          getByID ((OrderService.CreateOrder { orders := [], stock := [], events := [] }
              "u1" [{ productID := "p1", quantity := 2 }] "o1"
              (fun i => "i" ++ toString i) 7).1.orders) "o1" = some stored
          ∧ stored.status = "confirmed" := by
  obtain ⟨hpend, stored, hget, hconf⟩ := claim_C10_returned_pending
      { orders := [], stock := [], events := [] } "u1"
      [{ productID := "p1", quantity := 2 }] "o1" (fun i => "i" ++ toString i) 7
      (by simp) rfl
  exact ⟨_, rfl, hpend, stored, hget, hconf⟩

end ECom
